import Mathlib

/-!
Verification of the image-resizing app (`src/streamlit_app.py`).

The repository's logic is a single function `resize_image` that calls the
external resampling primitive `cv2.resize` four times with different
interpolation constants, plus a folder iterator `process_folder` with
per-item error handling and UI glue in `main`.  The external library
`cv2` is not part of the repository; we embed `resize_image` and
`process_folder` parametrically over the resampling primitive and state
the library's documented contract (output dimensions equal the requested
target size) as an explicit hypothesis where a claim needs it.
-/

/-- A decoded in-memory raster: numpy array of shape (height, width, ...).
`resize_image` reads `height, width = img_array.shape[:2]`; the pixel
buffer is carried as a flat list of sample values. -/
structure Image where
  height : Nat
  width : Nat
  data : List Nat
deriving DecidableEq, Repr

/-- The four interpolation selectors passed to `cv2.resize`
(`cv2.INTER_NEAREST`, `cv2.INTER_LINEAR`, `cv2.INTER_CUBIC`,
`cv2.INTER_LANCZOS4`). -/
inductive Interp where
  | nearest
  | linear
  | cubic
  | lanczos4
deriving DecidableEq, Repr

/-- Python `int(...)` applied to a real number: truncation toward zero. -/
def pyInt (q : ℚ) : Int :=
  if 0 ≤ q then ⌊q⌋ else ⌈q⌉

/-- Type of the external resampling primitive `cv2.resize`:
given the source image, the target width and height (the `dsize`
argument `(new_width, new_height)`) and an interpolation method, it
either produces an image or fails (raises).  `cv2` is an external
library, so the primitive is a parameter of the embedding. -/
def Resample : Type :=
  Image → Int → Int → Interp → Option Image

/-- The documented contract of `cv2.resize`: whenever the call succeeds,
the output image has exactly the requested target dimensions. -/
def DimsContract (r : Resample) : Prop :=
  ∀ img w h i out, r img w h i = some out →
    (out.width : Int) = w ∧ (out.height : Int) = h

/-- The fixed literal dict of `resize_image` (line 25-30), in insertion
order: `{'Nearest Neighbor': INTER_NEAREST, 'Bilinear': INTER_LINEAR,
'Bicubic': INTER_CUBIC, 'Lanczos': INTER_LANCZOS4}`. -/
def methods : List (String × Interp) :=
  [("Nearest Neighbor", Interp.nearest),
   ("Bilinear", Interp.linear),
   ("Bicubic", Interp.cubic),
   ("Lanczos", Interp.lanczos4)]

/-- The loop of `resize_image` (lines 32-35): for each `(name, method)`
in order, call the primitive with the same target dimensions and record
the output keyed by `name`; a failure (exception) of any call aborts the
whole computation, discarding the partial dict. -/
def run_methods (r : Resample) (img : Image) (nw nh : Int) :
    List (String × Interp) → Option (List (String × Image))
  | [] => some []
  | (name, method) :: rest =>
    match r img nw nh method with
    | none => none
    | some resized =>
      match run_methods r img nw nh rest with
      | none => none
      | some tail => some ((name, resized) :: tail)

/-- `resize_image(image, scale_factor)` (lines 8-37): compute
`new_width = int(width * scale_factor)` and
`new_height = int(height * scale_factor)` once, then resize with each of
the four methods, returning the mapping from method name to result. -/
def resize_image (r : Resample) (image : Image) (scale_factor : ℚ) :
    Option (List (String × Image)) :=
  let width := image.width
  let height := image.height
  let new_width := pyInt ((width : ℚ) * scale_factor)
  let new_height := pyInt ((height : ℚ) * scale_factor)
  run_methods r image new_width new_height methods

/-- Python `str.lower()` on the ASCII file and method names appearing
here: lowercase every character. -/
def pyLower (s : String) : String :=
  ⟨s.data.map Char.toLower⟩

/-- Python `str.endswith(suffix)`: the suffix relation on the underlying
character sequences. -/
def pyEndsWith (s suffix : String) : Bool :=
  suffix.data.isSuffixOf s.data

/-- Python `str.replace(" ", "_")` as called on the method names
(single-character pattern and replacement): substitute every space by an
underscore. -/
def spaceToUnderscore (s : String) : String :=
  ⟨s.data.map (fun c => if c = ' ' then '_' else c)⟩

/-- `supported_extensions` (line 47). -/
def supported_extensions : List String :=
  [".jpg", ".jpeg", ".png", ".bmp", ".webp"]

/-- The filter of `process_folder` (line 51):
`any(filename.lower().endswith(ext) for ext in supported_extensions)`. -/
def supported_name (filename : String) : Bool :=
  supported_extensions.any (fun ext => pyEndsWith (pyLower filename) ext)

/-- `process_folder(folder_path, scale_factor)` (lines 39-60).  A
directory listing is embedded as a list of `(filename, decode result)`
pairs, where `none` stands for a file on which `Image.open` raises
(corrupt or unreadable).  For each listed file with a supported
extension, decode and resize it; on success append
`(filename, resized_images)` to the results, on any exception report a
per-item `st.error` message and continue.  Returns the pair
(resized_results, error messages), each in listing order. -/
def process_folder (r : Resample) (listing : List (String × Option Image))
    (scale_factor : ℚ) :
    List (String × List (String × Image)) × List String :=
  match listing with
  | [] => ([], [])
  | p :: rest =>
    let acc := process_folder r rest scale_factor
    if supported_name p.1 then
      match p.2 with
      | none => (acc.1, ("Failed to process " ++ p.1) :: acc.2)
      | some img =>
        match resize_image r img scale_factor with
        | none => (acc.1, ("Failed to process " ++ p.1) :: acc.2)
        | some m => ((p.1, m) :: acc.1, acc.2)
    else acc

/-- The download file name in the folder-upload branch (line 144):
`f'{filename}_resized_{name.lower().replace(" ", "_")}.png'`. -/
def folder_download_name (filename name : String) : String :=
  filename ++ "_resized_" ++ spaceToUnderscore (pyLower name) ++ ".png"

/-- The download file name in the single-file-upload branch (line 111):
`f'resized_{name.lower().replace(" ", "_")}.png'`. -/
def upload_download_name (name : String) : String :=
  "resized_" ++ spaceToUnderscore (pyLower name) ++ ".png"

/-- The folder-upload branch of `main` (lines 118-151): an empty path
does nothing; a non-directory path reports a single error and processes
nothing; otherwise the listed directory is processed.  `isdir` and
`listdir` embed the filesystem (`os.path.isdir`, `os.listdir` plus
per-file decoding). -/
def folder_branch (r : Resample) (isdir : String → Bool)
    (listdir : String → List (String × Option Image))
    (folder_path : String) (scale_factor : ℚ) :
    List (String × List (String × Image)) × List String :=
  if folder_path = "" then ([], [])
  else if isdir folder_path then
    process_folder r (listdir folder_path) scale_factor
  else ([], ["Invalid folder path. Please enter a valid directory."])

/-- A concrete resampling primitive satisfying the `cv2.resize`
contract, used to instantiate the parametric theorems on concrete
inputs: it succeeds exactly on positive target dimensions and produces
an image of the requested size. -/
def modelResample : Resample :=
  fun _img w h _i =>
    if 0 < w ∧ 0 < h then
      some ⟨h.toNat, w.toNat, List.replicate (w.toNat * h.toNat) 0⟩
    else none

/-- A small concrete test image (3 wide, 2 high). -/
def testImg : Image :=
  ⟨2, 3, [0, 1, 2, 3, 4, 5]⟩

/-- Whether a listed item would be fully processed: its decode succeeds
and `resize_image` succeeds on the decoded image. -/
def item_ok (r : Resample) (s : ℚ) (p : String × Option Image) : Bool :=
  match p.2 with
  | none => false
  | some img => (resize_image r img s).isSome

lemma pyInt_of_nonneg (q : ℚ) (hq : 0 ≤ q) : pyInt q = ⌊q⌋ := by
  simp [pyInt, hq]

lemma pyInt_natCast (n : Nat) : pyInt ((n : ℚ)) = n := by
  simp [pyInt, Nat.cast_nonneg, Int.floor_natCast]

lemma run_methods_mem (r : Resample) (img : Image) (nw nh : Int) :
    ∀ (ms : List (String × Interp)) (m : List (String × Image)),
      run_methods r img nw nh ms = some m →
      ∀ e ∈ m, ∃ p ∈ ms, e.1 = p.1 ∧ r img nw nh p.2 = some e.2 := by
  intro ms
  induction ms with
  | nil =>
    intro m hm e he
    simp only [run_methods, Option.some.injEq] at hm
    subst hm
    simp at he
  | cons p rest ih =>
    intro m hm e he
    obtain ⟨name, method⟩ := p
    simp only [run_methods] at hm
    cases h1 : r img nw nh method with
    | none => rw [h1] at hm; simp at hm
    | some out =>
      rw [h1] at hm
      cases h2 : run_methods r img nw nh rest with
      | none => rw [h2] at hm; simp at hm
      | some tail =>
        rw [h2] at hm
        simp only [Option.some.injEq] at hm
        subst hm
        rcases List.mem_cons.mp he with he | he
        · subst he
          exact ⟨(name, method), List.mem_cons_self _ _, rfl, h1⟩
        · obtain ⟨q, hq, hq1, hq2⟩ := ih tail h2 e he
          exact ⟨q, List.mem_cons_of_mem _ hq, hq1, hq2⟩

lemma run_methods_map_fst (r : Resample) (img : Image) (nw nh : Int) :
    ∀ (ms : List (String × Interp)) (m : List (String × Image)),
      run_methods r img nw nh ms = some m →
      m.map Prod.fst = ms.map Prod.fst := by
  intro ms
  induction ms with
  | nil =>
    intro m hm
    simp only [run_methods, Option.some.injEq] at hm
    subst hm
    simp
  | cons p rest ih =>
    intro m hm
    obtain ⟨name, method⟩ := p
    simp only [run_methods] at hm
    cases h1 : r img nw nh method with
    | none => rw [h1] at hm; simp at hm
    | some out =>
      rw [h1] at hm
      cases h2 : run_methods r img nw nh rest with
      | none => rw [h2] at hm; simp at hm
      | some tail =>
        rw [h2] at hm
        simp only [Option.some.injEq] at hm
        subst hm
        simpa using ih tail h2

lemma run_methods_none (r : Resample) (img : Image) (nw nh : Int) :
    ∀ (ms : List (String × Interp)) (p : String × Interp), p ∈ ms →
      r img nw nh p.2 = none → run_methods r img nw nh ms = none := by
  intro ms
  induction ms with
  | nil => intro p hp; simp at hp
  | cons q rest ih =>
    intro p hp hfail
    obtain ⟨name, method⟩ := q
    rcases List.mem_cons.mp hp with hp | hp
    · subst hp
      simp only [run_methods, hfail]
    · simp only [run_methods]
      cases h1 : r img nw nh method with
      | none => rfl
      | some out => rw [ih p hp hfail]

lemma modelResample_dims : DimsContract modelResample := by
  intro img w h i out hout
  simp only [modelResample] at hout
  split at hout
  · rename_i hc
    cases hout
    refine ⟨?_, ?_⟩
    · exact Int.toNat_of_nonneg hc.1.le
    · exact Int.toNat_of_nonneg hc.2.le
  · cases hout

lemma resize_eval_two :
    resize_image modelResample testImg 2 =
      some [("Nearest Neighbor", ⟨4, 6, List.replicate 24 0⟩),
            ("Bilinear", ⟨4, 6, List.replicate 24 0⟩),
            ("Bicubic", ⟨4, 6, List.replicate 24 0⟩),
            ("Lanczos", ⟨4, 6, List.replicate 24 0⟩)] := by
  have h1 : pyInt ((testImg.width : ℚ) * 2) = 6 := by norm_num [pyInt, testImg]
  have h2 : pyInt ((testImg.height : ℚ) * 2) = 4 := by norm_num [pyInt, testImg]
  simp only [resize_image, h1, h2]
  decide

lemma resize_eval_one :
    resize_image modelResample testImg 1 =
      some [("Nearest Neighbor", ⟨2, 3, List.replicate 6 0⟩),
            ("Bilinear", ⟨2, 3, List.replicate 6 0⟩),
            ("Bicubic", ⟨2, 3, List.replicate 6 0⟩),
            ("Lanczos", ⟨2, 3, List.replicate 6 0⟩)] := by
  have h1 : pyInt ((testImg.width : ℚ) * 1) = 3 := by norm_num [pyInt, testImg]
  have h2 : pyInt ((testImg.height : ℚ) * 1) = 2 := by norm_num [pyInt, testImg]
  simp only [resize_image, h1, h2]
  decide

lemma process_folder_results_length (r : Resample) (s : ℚ) :
    ∀ listing : List (String × Option Image),
      (process_folder r listing s).1.length =
        (listing.filter (fun p => supported_name p.1 && item_ok r s p)).length := by
  intro listing
  induction listing with
  | nil => rfl
  | cons p rest ih =>
    obtain ⟨name, c⟩ := p
    by_cases hsup : supported_name name = true
    · cases c with
      | none => simp [process_folder, item_ok, hsup, ih]
      | some img =>
        cases hres : resize_image r img s with
        | none => simp [process_folder, item_ok, hsup, hres, ih]
        | some m => simp [process_folder, item_ok, hsup, hres, ih]
    · simp only [Bool.not_eq_true] at hsup
      simp [process_folder, hsup, ih]

lemma process_folder_errors_length (r : Resample) (s : ℚ) :
    ∀ listing : List (String × Option Image),
      (process_folder r listing s).2.length =
        (listing.filter (fun p => supported_name p.1 && !(item_ok r s p))).length := by
  intro listing
  induction listing with
  | nil => rfl
  | cons p rest ih =>
    obtain ⟨name, c⟩ := p
    by_cases hsup : supported_name name = true
    · cases c with
      | none => simp [process_folder, item_ok, hsup, ih]
      | some img =>
        cases hres : resize_image r img s with
        | none => simp [process_folder, item_ok, hsup, hres, ih]
        | some m => simp [process_folder, item_ok, hsup, hres, ih]
    · simp only [Bool.not_eq_true] at hsup
      simp [process_folder, hsup, ih]

lemma filter_length_split {α : Type} (sup ok : α → Bool) :
    ∀ l : List α,
      (l.filter (fun a => sup a)).length =
        (l.filter (fun a => sup a && ok a)).length +
        (l.filter (fun a => sup a && !(ok a))).length := by
  intro l
  induction l with
  | nil => rfl
  | cons a rest ih =>
    by_cases hs : sup a = true
    · by_cases ho : ok a = true
      · simp [List.filter_cons, hs, ho, ih]
        omega
      · simp only [Bool.not_eq_true] at ho
        simp [List.filter_cons, hs, ho, ih]
        omega
    · simp only [Bool.not_eq_true] at hs
      simp [List.filter_cons, hs, ih]

lemma run_methods_four (r : Resample) (img : Image) (nw nh : Int)
    (m : List (String × Image))
    (hm : run_methods r img nw nh methods = some m) :
    ∃ o1 o2 o3 o4,
      m = [("Nearest Neighbor", o1), ("Bilinear", o2),
           ("Bicubic", o3), ("Lanczos", o4)] ∧
      r img nw nh Interp.nearest = some o1 ∧
      r img nw nh Interp.linear = some o2 ∧
      r img nw nh Interp.cubic = some o3 ∧
      r img nw nh Interp.lanczos4 = some o4 := by
  simp only [methods, run_methods] at hm
  cases h1 : r img nw nh Interp.nearest with
  | none => rw [h1] at hm; cases hm
  | some o1 =>
    rw [h1] at hm
    cases h2 : r img nw nh Interp.linear with
    | none => rw [h2] at hm; cases hm
    | some o2 =>
      rw [h2] at hm
      cases h3 : r img nw nh Interp.cubic with
      | none => rw [h3] at hm; cases hm
      | some o3 =>
        rw [h3] at hm
        cases h4 : r img nw nh Interp.lanczos4 with
        | none => rw [h4] at hm; cases hm
        | some o4 =>
          rw [h4] at hm
          simp only [Option.some.injEq] at hm
          exact ⟨o1, o2, o3, o4, hm.symm, rfl, rfl, rfl, rfl⟩

/-- C1: for every image and scale factor s > 0, when `resize_image`
succeeds and the resampling primitive respects its dimension contract,
every image in the returned mapping has dimensions
(floor(width * s), floor(height * s)); the same target pair, computed
once, is behind all four entries. -/
theorem resize_image_target_dims (r : Resample) (image : Image) (s : ℚ)
    (m : List (String × Image)) (hr : DimsContract r) (hs : 0 < s)
    (hm : resize_image r image s = some m) :
    ∀ e ∈ m, (e.2.width : Int) = ⌊(image.width : ℚ) * s⌋ ∧
             (e.2.height : Int) = ⌊(image.height : ℚ) * s⌋ := by
  intro e he
  simp only [resize_image] at hm
  obtain ⟨p, hp, hfst, hcall⟩ := run_methods_mem r image _ _ methods m hm e he
  obtain ⟨hw, hh⟩ := hr image _ _ p.2 e.2 hcall
  rw [pyInt_of_nonneg _ (mul_nonneg (Nat.cast_nonneg _) hs.le)] at hw
  rw [pyInt_of_nonneg _ (mul_nonneg (Nat.cast_nonneg _) hs.le)] at hh
  exact ⟨hw, hh⟩

theorem resize_image_target_dims_witness :
    DimsContract modelResample ∧ (0 : ℚ) < 2 ∧
    resize_image modelResample testImg 2 =
      some [("Nearest Neighbor", ⟨4, 6, List.replicate 24 0⟩),
            ("Bilinear", ⟨4, 6, List.replicate 24 0⟩),
            ("Bicubic", ⟨4, 6, List.replicate 24 0⟩),
            ("Lanczos", ⟨4, 6, List.replicate 24 0⟩)] ∧
    ∀ e ∈ [(("Nearest Neighbor" : String), (⟨4, 6, List.replicate 24 0⟩ : Image)),
           ("Bilinear", ⟨4, 6, List.replicate 24 0⟩),
           ("Bicubic", ⟨4, 6, List.replicate 24 0⟩),
           ("Lanczos", ⟨4, 6, List.replicate 24 0⟩)],
      (e.2.width : Int) = ⌊(testImg.width : ℚ) * 2⌋ ∧
      (e.2.height : Int) = ⌊(testImg.height : ℚ) * 2⌋ :=
  ⟨modelResample_dims, by norm_num, resize_eval_two,
   resize_image_target_dims modelResample testImg 2 _ modelResample_dims
     (by norm_num) resize_eval_two⟩

/-- C2: whenever `resize_image` returns successfully, the mapping has
exactly the four fixed method keys, in insertion order, regardless of
the input image, the primitive or the scale factor. -/
theorem resize_image_keys (r : Resample) (image : Image) (s : ℚ)
    (m : List (String × Image)) (hm : resize_image r image s = some m) :
    m.map Prod.fst = ["Nearest Neighbor", "Bilinear", "Bicubic", "Lanczos"] := by
  simp only [resize_image] at hm
  have h := run_methods_map_fst r image _ _ methods m hm
  simpa [methods] using h

theorem resize_image_keys_witness :
    resize_image modelResample testImg 2 =
      some [("Nearest Neighbor", ⟨4, 6, List.replicate 24 0⟩),
            ("Bilinear", ⟨4, 6, List.replicate 24 0⟩),
            ("Bicubic", ⟨4, 6, List.replicate 24 0⟩),
            ("Lanczos", ⟨4, 6, List.replicate 24 0⟩)] ∧
    [(("Nearest Neighbor" : String), (⟨4, 6, List.replicate 24 0⟩ : Image)),
     ("Bilinear", ⟨4, 6, List.replicate 24 0⟩),
     ("Bicubic", ⟨4, 6, List.replicate 24 0⟩),
     ("Lanczos", ⟨4, 6, List.replicate 24 0⟩)].map Prod.fst =
      ["Nearest Neighbor", "Bilinear", "Bicubic", "Lanczos"] :=
  ⟨resize_eval_two, resize_image_keys modelResample testImg 2 _ resize_eval_two⟩

/-- C5: `resize_image` is atomic on failure: if the resampling primitive
fails for any of the four methods at the computed target dimensions, the
whole call fails (raises) and no partial mapping is returned. -/
theorem resize_image_atomic (r : Resample) (image : Image) (s : ℚ)
    (hfail : ∃ p ∈ methods,
      r image (pyInt ((image.width : ℚ) * s))
        (pyInt ((image.height : ℚ) * s)) p.2 = none) :
    resize_image r image s = none := by
  obtain ⟨p, hp, hfail⟩ := hfail
  simp only [resize_image]
  exact run_methods_none r image _ _ methods p hp hfail

theorem resize_image_atomic_witness :
    (∃ p ∈ methods, modelResample testImg
        (pyInt ((testImg.width : ℚ) * (1 / 10)))
        (pyInt ((testImg.height : ℚ) * (1 / 10))) p.2 = none) ∧
    resize_image modelResample testImg (1 / 10) = none := by
  have hw : pyInt ((testImg.width : ℚ) * (1 / 10)) = 0 := by
    norm_num [pyInt, testImg]
  have hfail : ∃ p ∈ methods, modelResample testImg
      (pyInt ((testImg.width : ℚ) * (1 / 10)))
      (pyInt ((testImg.height : ℚ) * (1 / 10))) p.2 = none := by
    refine ⟨("Nearest Neighbor", Interp.nearest), by simp [methods], ?_⟩
    rw [hw]
    simp [modelResample]
  exact ⟨hfail, resize_image_atomic modelResample testImg (1 / 10) hfail⟩

/-- C6: resizing with scale factor 1 yields a mapping in which every
result image has exactly the original dimensions, for a primitive that
respects its dimension contract. -/
theorem resize_image_identity_scale (r : Resample) (image : Image)
    (m : List (String × Image)) (hr : DimsContract r)
    (hm : resize_image r image 1 = some m) :
    ∀ e ∈ m, e.2.width = image.width ∧ e.2.height = image.height := by
  intro e he
  simp only [resize_image, mul_one, pyInt_natCast] at hm
  obtain ⟨p, hp, hfst, hcall⟩ := run_methods_mem r image _ _ methods m hm e he
  obtain ⟨hw, hh⟩ := hr image _ _ p.2 e.2 hcall
  exact ⟨by exact_mod_cast hw, by exact_mod_cast hh⟩

theorem resize_image_identity_scale_witness :
    DimsContract modelResample ∧
    resize_image modelResample testImg 1 =
      some [("Nearest Neighbor", ⟨2, 3, List.replicate 6 0⟩),
            ("Bilinear", ⟨2, 3, List.replicate 6 0⟩),
            ("Bicubic", ⟨2, 3, List.replicate 6 0⟩),
            ("Lanczos", ⟨2, 3, List.replicate 6 0⟩)] ∧
    ∀ e ∈ [(("Nearest Neighbor" : String), (⟨2, 3, List.replicate 6 0⟩ : Image)),
           ("Bilinear", ⟨2, 3, List.replicate 6 0⟩),
           ("Bicubic", ⟨2, 3, List.replicate 6 0⟩),
           ("Lanczos", ⟨2, 3, List.replicate 6 0⟩)],
      e.2.width = testImg.width ∧ e.2.height = testImg.height :=
  ⟨modelResample_dims, resize_eval_one,
   resize_image_identity_scale modelResample testImg _ modelResample_dims
     resize_eval_one⟩

/-- C8: `resize_image` is deterministic and side-effect free: two calls
with field-wise equal input images and equal scale factors return equal
result mappings (the embedding is a pure function, so the input is never
modified). -/
theorem resize_image_deterministic (r : Resample) (img1 img2 : Image)
    (s1 s2 : ℚ) (hw : img1.width = img2.width)
    (hh : img1.height = img2.height) (hd : img1.data = img2.data)
    (hs : s1 = s2) :
    resize_image r img1 s1 = resize_image r img2 s2 := by
  obtain ⟨h1, w1, d1⟩ := img1
  obtain ⟨h2, w2, d2⟩ := img2
  dsimp only at hw hh hd
  subst hw hh hd hs
  rfl

theorem resize_image_deterministic_witness :
    testImg.width = testImg.width ∧ testImg.height = testImg.height ∧
    testImg.data = testImg.data ∧ (2 : ℚ) = 2 ∧
    resize_image modelResample testImg 2 = resize_image modelResample testImg 2 :=
  ⟨rfl, rfl, rfl, rfl,
   resize_image_deterministic modelResample testImg testImg 2 2 rfl rfl rfl rfl⟩

/-- C9: the four resampling computations happen in the insertion order
of the fixed literal list — Nearest Neighbor, Bilinear, Bicubic,
Lanczos — and each entry of a successful result is determined by the
primitive applied to its own method alone, so the order has no effect on
any entry value. -/
theorem resize_image_method_order (r : Resample) (image : Image) (s : ℚ)
    (m : List (String × Image)) (hm : resize_image r image s = some m) :
    ∃ o1 o2 o3 o4,
      m = [("Nearest Neighbor", o1), ("Bilinear", o2),
           ("Bicubic", o3), ("Lanczos", o4)] ∧
      r image (pyInt ((image.width : ℚ) * s))
        (pyInt ((image.height : ℚ) * s)) Interp.nearest = some o1 ∧
      r image (pyInt ((image.width : ℚ) * s))
        (pyInt ((image.height : ℚ) * s)) Interp.linear = some o2 ∧
      r image (pyInt ((image.width : ℚ) * s))
        (pyInt ((image.height : ℚ) * s)) Interp.cubic = some o3 ∧
      r image (pyInt ((image.width : ℚ) * s))
        (pyInt ((image.height : ℚ) * s)) Interp.lanczos4 = some o4 := by
  simp only [resize_image] at hm
  exact run_methods_four r image _ _ m hm

theorem resize_image_method_order_witness :
    resize_image modelResample testImg 2 =
      some [("Nearest Neighbor", ⟨4, 6, List.replicate 24 0⟩),
            ("Bilinear", ⟨4, 6, List.replicate 24 0⟩),
            ("Bicubic", ⟨4, 6, List.replicate 24 0⟩),
            ("Lanczos", ⟨4, 6, List.replicate 24 0⟩)] ∧
    ∃ o1 o2 o3 o4,
      [(("Nearest Neighbor" : String), (⟨4, 6, List.replicate 24 0⟩ : Image)),
       ("Bilinear", ⟨4, 6, List.replicate 24 0⟩),
       ("Bicubic", ⟨4, 6, List.replicate 24 0⟩),
       ("Lanczos", ⟨4, 6, List.replicate 24 0⟩)] =
        [("Nearest Neighbor", o1), ("Bilinear", o2),
         ("Bicubic", o3), ("Lanczos", o4)] ∧
      modelResample testImg (pyInt ((testImg.width : ℚ) * 2))
        (pyInt ((testImg.height : ℚ) * 2)) Interp.nearest = some o1 ∧
      modelResample testImg (pyInt ((testImg.width : ℚ) * 2))
        (pyInt ((testImg.height : ℚ) * 2)) Interp.linear = some o2 ∧
      modelResample testImg (pyInt ((testImg.width : ℚ) * 2))
        (pyInt ((testImg.height : ℚ) * 2)) Interp.cubic = some o3 ∧
      modelResample testImg (pyInt ((testImg.width : ℚ) * 2))
        (pyInt ((testImg.height : ℚ) * 2)) Interp.lanczos4 = some o4 :=
  ⟨resize_eval_two,
   resize_image_method_order modelResample testImg 2 _ resize_eval_two⟩

/-- A concrete directory listing: three supported files of which exactly
one fails to decode, plus one file with an unsupported extension. -/
def testList : List (String × Option Image) :=
  [("a.jpg", some testImg), ("bad.png", none),
   ("c.bmp", some testImg), ("notes.txt", some testImg)]

/-- C3 counterexample: in the single-file-upload branch the download
filename for the Bicubic result is `resized_bicubic.png`; it carries no
basename prefix, so it is not of the form
`<basename>_resized_bicubic.png` for any basename. -/
theorem upload_name_lacks_basename :
    upload_download_name "Bicubic" = "resized_bicubic.png" ∧
    ¬ ∃ basename : String,
        upload_download_name "Bicubic" = basename ++ "_resized_bicubic.png" := by
  refine ⟨by decide, ?_⟩
  rintro ⟨b, hb⟩
  have h1 : (upload_download_name "Bicubic").length = 19 := by decide
  rw [hb, String.length_append] at h1
  have h2 : ("_resized_bicubic.png" : String).length = 20 := by decide
  rw [h2] at h1
  omega

/-- C3 (amended): the folder-variant download filename is
`<filename>_resized_<method>.png` (listed file name, extension
included; method name lowercased with spaces replaced by underscores),
while the single-file-upload variant produces `resized_<method>.png`
with no basename prefix. -/
theorem download_name_forms :
    (∀ filename name : String, folder_download_name filename name =
        filename ++ "_resized_" ++ spaceToUnderscore (pyLower name) ++ ".png") ∧
    (∀ name : String, upload_download_name name =
        "resized_" ++ spaceToUnderscore (pyLower name) ++ ".png") ∧
    folder_download_name "photo.jpg" "Bicubic" = "photo.jpg_resized_bicubic.png" ∧
    folder_download_name "photo.jpg" "Nearest Neighbor" =
      "photo.jpg_resized_nearest_neighbor.png" ∧
    upload_download_name "Bicubic" = "resized_bicubic.png" :=
  ⟨fun _ _ => rfl, fun _ => rfl, by decide, by decide, by decide⟩

/-- C4: in the folder-processing variant, a listing with N supported
files of which exactly one is corrupt or undecodable (and the rest
resize successfully) yields N-1 successful results and exactly one
per-item error; one bad file never aborts the batch. -/
theorem process_folder_one_bad (r : Resample) (s : ℚ)
    (listing : List (String × Option Image)) (N : Nat)
    (hN : (listing.filter (fun p => supported_name p.1)).length = N)
    (hbad : (listing.filter
        (fun p => supported_name p.1 && p.2.isNone)).length = 1)
    (hok : ∀ p ∈ listing, supported_name p.1 = true →
      ∀ img, p.2 = some img → (resize_image r img s).isSome = true) :
    (process_folder r listing s).1.length = N - 1 ∧
    (process_folder r listing s).2.length = 1 := by
  have hfilter : listing.filter (fun p => supported_name p.1 && !(item_ok r s p)) =
      listing.filter (fun p => supported_name p.1 && p.2.isNone) := by
    apply List.filter_congr
    intro p hp
    by_cases hsup : supported_name p.1 = true
    · cases hc : p.2 with
      | none => simp [hsup, item_ok, hc]
      | some img =>
        have hres := hok p hp hsup img hc
        simp [hsup, item_ok, hc, hres]
    · simp only [Bool.not_eq_true] at hsup
      simp [hsup]
  have herr : (process_folder r listing s).2.length = 1 := by
    rw [process_folder_errors_length r s listing, hfilter, hbad]
  refine ⟨?_, herr⟩
  have h1 := process_folder_results_length r s listing
  have h2 := filter_length_split (fun p => supported_name p.1)
    (fun p => item_ok r s p) listing
  simp only [] at h2
  rw [hfilter, hN, hbad] at h2
  omega

theorem process_folder_one_bad_witness :
    ((testList.filter (fun p => supported_name p.1)).length = 3) ∧
    ((testList.filter
        (fun p => supported_name p.1 && p.2.isNone)).length = 1) ∧
    (∀ p ∈ testList, supported_name p.1 = true →
      ∀ img, p.2 = some img →
        (resize_image modelResample img 2).isSome = true) ∧
    (process_folder modelResample testList 2).1.length = 3 - 1 ∧
    (process_folder modelResample testList 2).2.length = 1 := by
  have hN : (testList.filter (fun p => supported_name p.1)).length = 3 := by
    decide
  have hbad : (testList.filter
      (fun p => supported_name p.1 && p.2.isNone)).length = 1 := by
    decide
  have hok : ∀ p ∈ testList, supported_name p.1 = true →
      ∀ img, p.2 = some img →
        (resize_image modelResample img 2).isSome = true := by
    intro p hp hsup img himg
    simp only [testList, List.mem_cons, List.mem_singleton] at hp
    rcases hp with rfl | rfl | rfl | rfl | hp
    · simp only at himg
      cases himg
      simp [resize_eval_two]
    · cases himg
    · simp only at himg
      cases himg
      simp [resize_eval_two]
    · simp only at himg
      cases himg
      simp [resize_eval_two]
    · simp at hp
  exact ⟨hN, hbad, hok,
    process_folder_one_bad modelResample 2 testList 3 hN hbad hok⟩

/-- C7: in the folder-input variant, a non-empty path that is not a
valid directory yields exactly one error report and no item results —
no processing is attempted. -/
theorem folder_branch_invalid_dir (r : Resample) (isdir : String → Bool)
    (listdir : String → List (String × Option Image)) (folder_path : String)
    (s : ℚ) (hne : folder_path ≠ "") (hdir : isdir folder_path = false) :
    folder_branch r isdir listdir folder_path s =
      ([], ["Invalid folder path. Please enter a valid directory."]) := by
  simp [folder_branch, hne, hdir]

theorem folder_branch_invalid_dir_witness :
    ("bogus" : String) ≠ "" ∧ (fun _ : String => false) "bogus" = false ∧
    folder_branch modelResample (fun _ => false) (fun _ => []) "bogus" 2 =
      ([], ["Invalid folder path. Please enter a valid directory."]) :=
  ⟨by decide, rfl,
   folder_branch_invalid_dir modelResample (fun _ => false) (fun _ => [])
     "bogus" 2 (by decide) rfl⟩

/-- C10: `process_folder` keeps exactly the files whose lowercased name
ends with one of the five supported extensions (so `PHOTO.JPG` is
processed), and a listed file with an unsupported name is skipped
silently: removing it from the listing changes neither the results nor
the reported errors. -/
theorem process_folder_extension_filter :
    supported_name "PHOTO.JPG" = true ∧
    ∀ (r : Resample) (s : ℚ) (name : String) (c : Option Image)
      (listing : List (String × Option Image)),
      supported_name name = false →
      process_folder r ((name, c) :: listing) s = process_folder r listing s := by
  refine ⟨by decide, ?_⟩
  intro r s name c listing hname
  simp [process_folder, hname]

theorem process_folder_extension_filter_witness :
    supported_name "notes.txt" = false ∧
    process_folder modelResample [("notes.txt", some testImg)] 2 =
      process_folder modelResample [] 2 :=
  ⟨by decide,
   process_folder_extension_filter.2 modelResample 2 "notes.txt"
     (some testImg) [] (by decide)⟩
